import Mathlib

/-! # ingress-manager-controller: a shallow embedding of `pkg/controller.go`

The controller watches Services and derives Ingresses from them.  This file
embeds the reconciliation core of `pkg/controller.go`:

* `constructIngress`  : the desired-state builder (Service → Ingress),
* `syncService`       : the reconciler for one key,
* `handlerError`, `processNextItem`, `deleteIngress` : the retry policy, the
  worker step and the Ingress-delete event handler, over a model of the
  client-go rate-limited work queue.

Go values are embedded as follows.  An `error` is `Option Error` (`none` is
`nil`); a pointer result is an `Option`; `int` and `int32` are `Int`, with the
conversion `int32(p)` made explicit by `toInt32`; Go maps from string to string
are association lists read with `List.lookup`.  Calls that print to standard
output have no counterpart.  The client-go and strconv functions the
controller calls are modelled next to their callers, each with the Go
behaviour it mirrors spelled out.  The width of Go's `int` depends on the
build target, so `strconv.Atoi` and its callers take it as the argument
`intSize` (64 on amd64 and arm64).

The listers and the client are the controller's collaborators: a `controller`
carries their answers as functions, and `Cluster` is the state behind them,
read by the listers and changed by the client calls that succeed.
-/

namespace IngressManager

/-! ## Errors -/

/-- Go `error` values the controller can see. -/
inductive Error where
  /-- An API status error with reason `NotFound` (`errors.NewNotFound`). -/
  | NotFound (resource name : String)
  /-- The error of `cache.SplitMetaNamespaceKey`: "unexpected key format". -/
  | KeyFormat (key : String)
  /-- A `strconv.NumError` wrapping `strconv.ErrSyntax`. -/
  | SyntaxError (num : String)
  /-- A `strconv.NumError` wrapping `strconv.ErrRange`. -/
  | RangeError (num : String)
  /-- Any other failure reported by the cache or the API server. -/
  | Other (msg : String)
  deriving DecidableEq, Repr

/-- Go `errors.IsNotFound(err)`: true exactly for a status error whose reason
is `NotFound`; false for `nil`. -/
def IsNotFound : Option Error → Bool
  | some (Error.NotFound _ _) => true
  | _ => false

/-! ## Kubernetes objects (the fields the controller reads or writes) -/

/-- A `metav1.OwnerReference`. -/
structure OwnerReference where
  APIVersion : String
  Kind : String
  Name : String
  UID : String
  Controller : Option Bool
  BlockOwnerDeletion : Option Bool
  deriving DecidableEq, Repr

/-- A `corev1.Service`: its object metadata. -/
structure Service where
  Name : String
  Namespace : String
  UID : String
  Annotations : List (String × String)
  deriving DecidableEq, Repr

/-- The `networkingv1.PathType` values. -/
inductive PathType where
  | Exact
  | Prefix
  | ImplementationSpecific
  deriving DecidableEq, Repr

/-- A `networkingv1.ServiceBackendPort`; `Number` is an `int32`. -/
structure ServiceBackendPort where
  Name : String
  Number : Int
  deriving DecidableEq, Repr

/-- A `networkingv1.IngressServiceBackend`. -/
structure IngressServiceBackend where
  Name : String
  Port : ServiceBackendPort
  deriving DecidableEq, Repr

/-- A `networkingv1.IngressBackend`. -/
structure IngressBackend where
  Service : Option IngressServiceBackend
  deriving DecidableEq, Repr

/-- A `networkingv1.HTTPIngressPath`. -/
structure HTTPIngressPath where
  Path : String
  PathType : Option PathType
  Backend : IngressBackend
  deriving DecidableEq, Repr

/-- A `networkingv1.HTTPIngressRuleValue`. -/
structure HTTPIngressRuleValue where
  Paths : List HTTPIngressPath
  deriving DecidableEq, Repr

/-- A `networkingv1.IngressRule` (`IngressRuleValue` is embedded, so `HTTP` is
a field of the rule). -/
structure IngressRule where
  Host : String
  HTTP : Option HTTPIngressRuleValue
  deriving DecidableEq, Repr

/-- A `networkingv1.IngressSpec`. -/
structure IngressSpec where
  IngressClassName : Option String
  Rules : List IngressRule
  deriving DecidableEq, Repr

/-- A `networkingv1.Ingress`. -/
structure Ingress where
  Name : String
  Namespace : String
  OwnerReferences : List OwnerReference
  Spec : IngressSpec
  deriving DecidableEq, Repr

/-- Go `metav1.NewControllerRef(owner, gvk)`: a reference to `owner` with
`Controller` and `BlockOwnerDeletion` both pointing at `true`. -/
def NewControllerRef (owner : Service) (apiVersion kind : String) : OwnerReference :=
  { APIVersion := apiVersion
    Kind := kind
    Name := owner.Name
    UID := owner.UID
    Controller := some true
    BlockOwnerDeletion := some true }

/-- Go `metav1.GetControllerOf(obj)`: the first owner reference whose
`Controller` pointer is non-nil and true, or `nil`. -/
def GetControllerOf (ingress : Ingress) : Option OwnerReference :=
  ingress.OwnerReferences.find? (fun r => r.Controller == some true)

/-! ## `strconv.Atoi` -/

/-- The largest `uint64`. -/
def maxUint64 : Nat := 2 ^ 64 - 1

/-- The digit loop of `strconv.ParseUint(s, 10, bitSize)` over the remaining
bytes, `n` being the value read so far and `maxVal = 1<<bitSize - 1`.  A byte
that is not a decimal digit is a syntax error with value 0; an overflow stops
the loop at once with `maxVal` and a range error. -/
def parseUintLoop (s0 : String) (maxVal : Nat) : List Char → Nat → Nat × Option Error
  | [], n => (n, none)
  | c :: cs, n =>
    if '0' ≤ c ∧ c ≤ '9' then
      let d := c.toNat - '0'.toNat
      if n ≥ maxUint64 / 10 + 1 then (maxVal, some (Error.RangeError s0))
      else
        let n1 := n * 10 + d
        if n1 > maxUint64 ∨ n1 > maxVal then (maxVal, some (Error.RangeError s0))
        else parseUintLoop s0 maxVal cs n1
    else (0, some (Error.SyntaxError s0))

/-- Go `strconv.ParseUint(s, 10, bitSize)` for `bitSize` 32 or 64. -/
def ParseUint (s : List Char) (s0 : String) (bitSize : Nat) : Nat × Option Error :=
  match s with
  | [] => (0, some (Error.SyntaxError s0))
  | _ => parseUintLoop s0 (2 ^ bitSize - 1) s 0

/-- Go `strconv.ParseInt(s, 10, 0)` on a platform whose `int` has `intSize`
bits: an optional sign, then `ParseUint`; a magnitude outside the signed
range gives the nearest bound and a range error. -/
def ParseInt (s0 : String) (intSize : Nat) : Int × Option Error :=
  match s0.toList with
  | [] => (0, some (Error.SyntaxError s0))
  | c :: cs =>
    let neg := c == '-'
    let s := if c == '+' ∨ c == '-' then cs else c :: cs
    match ParseUint s s0 intSize with
    | (_, some (Error.RangeError _)) =>
      let cutoff : Nat := 2 ^ (intSize - 1)
      if neg then (-(cutoff : Int), some (Error.RangeError s0))
      else ((cutoff : Int) - 1, some (Error.RangeError s0))
    | (_, some e) => (0, some e)
    | (un, none) =>
      let cutoff : Nat := 2 ^ (intSize - 1)
      if ¬ neg ∧ un ≥ cutoff then ((cutoff : Int) - 1, some (Error.RangeError s0))
      else if neg ∧ un > cutoff then (-(cutoff : Int), some (Error.RangeError s0))
      else if neg then (-(un : Int), none)
      else ((un : Int), none)

/-- The fast-path digit loop of `strconv.Atoi`. -/
def atoiFastLoop : List Char → Nat → Option Nat
  | [], n => some n
  | c :: cs, n =>
    if '0' ≤ c ∧ c ≤ '9' then atoiFastLoop cs (n * 10 + (c.toNat - '0'.toNat))
    else none

/-- Go `strconv.Atoi(s)` on a platform whose `int` has `intSize` bits (64 on
amd64 and arm64, 32 on 386 and arm).  Strings short enough not to overflow
take the fast path; all others go through `ParseInt(s, 10, 0)`.  The first
component is the returned `int` (0 on a syntax error), the second the
returned `error`. -/
def Atoi (intSize : Nat) (s0 : String) : Int × Option Error :=
  let sLen := s0.utf8ByteSize
  if (intSize = 32 ∧ 0 < sLen ∧ sLen < 10) ∨ (intSize = 64 ∧ 0 < sLen ∧ sLen < 19) then
    match s0.toList with
    | [] => (0, some (Error.SyntaxError s0))
    | c :: cs =>
      let s := if c == '-' ∨ c == '+' then cs else c :: cs
      match s with
      | [] => (0, some (Error.SyntaxError s0))
      | _ =>
        match atoiFastLoop s 0 with
        | none => (0, some (Error.SyntaxError s0))
        | some n => if c == '-' then (-(n : Int), none) else ((n : Int), none)
  else ParseInt s0 intSize

/-- Go conversion `int32(p)` of an `int`: the low 32 bits, read as a signed
two's-complement number. -/
def toInt32 (p : Int) : Int := (p + 2 ^ 31) % 2 ^ 32 - 2 ^ 31

/-! ## The desired-state builder -/

/-- Go `(*controller).constructIngress(service)`.  `port` starts as 80 and is
overwritten by `int32(p)` whenever the "service/port" annotation is present,
`p` being the value `strconv.Atoi` returns; the error returned with it is
discarded (`p, _ := strconv.Atoi(po)`).  `host` starts as "example.com" and is
overwritten by the "rule/host" annotation when present. -/
def constructIngress (intSize : Nat) (service : Service) : Ingress :=
  let port : Int :=
    match service.Annotations.lookup "service/port" with
    | some po => toInt32 (Atoi intSize po).1
    | none => 80
  let host : String :=
    match service.Annotations.lookup "rule/host" with
    | some h => h
    | none => "example.com"
  { Name := service.Name
    Namespace := service.Namespace
    OwnerReferences := [NewControllerRef service "v1" "Service"]
    Spec :=
      { IngressClassName := some "nginx"
        Rules :=
          [ { Host := host
              HTTP := some
                { Paths :=
                    [ { Path := "/"
                        PathType := some PathType.Prefix
                        Backend :=
                          { Service := some
                              { Name := service.Name
                                Port := { Name := "", Number := port } } } } ] } } ] } }

/-- The backend port number of the first path of the first rule, if any. -/
def Ingress.backendPort (ig : Ingress) : Option Int :=
  match ig.Spec.Rules with
  | r :: _ =>
    match r.HTTP with
    | some http =>
      match http.Paths with
      | p :: _ =>
        match p.Backend.Service with
        | some b => some b.Port.Number
        | none => none
      | [] => none
    | none => none
  | [] => none

/-! ## Keys -/

/-- Go `strings.Split(s, "/")` on the bytes of a string: the pieces between
the slashes, always at least one piece. -/
def splitSlash : List Char → List (List Char)
  | [] => [[]]
  | c :: cs =>
    if c = '/' then [] :: splitSlash cs
    else
      match splitSlash cs with
      | p :: ps => (c :: p) :: ps
      | [] => [[c]]

/-- Go `cache.SplitMetaNamespaceKey(key)`: one part is a name without a
namespace, two parts are namespace and name, anything else is an error.  The
result is the Go triple `(namespace, name, err)`. -/
def SplitMetaNamespaceKey (key : String) : String × String × Option Error :=
  match splitSlash key.toList with
  | [name] => ("", String.mk name, none)
  | [ns, name] => (String.mk ns, String.mk name, none)
  | _ => ("", "", some (Error.KeyFormat key))

/-! ## The work queue

A model of client-go's `workqueue.RateLimitingInterface` as built by
`NewNamedRateLimitingQueue(DefaultControllerRateLimiter(), ...)`: the FIFO
`queue` of ready items, the `dirty` and `processing` sets, the per-item failure
counts of the exponential rate limiter, and the items of the delaying queue
whose delay has not elapsed yet. -/

/-- The state of the rate-limited work queue. -/
structure RateLimitingQueue where
  queue : List String
  dirty : List String
  processing : List String
  failures : List (String × Nat)
  waitingForAdd : List String
  shuttingDown : Bool
  deriving DecidableEq, Repr

/-- Insertion into a set kept as a list. -/
def setInsert (s : List String) (item : String) : List String :=
  if item ∈ s then s else s ++ [item]

/-- Removal from a set kept as a list. -/
def setDelete (s : List String) (item : String) : List String :=
  s.filter (fun x => x != item)

/-- Go `(*Type).Add(item)`: ignored when shutting down or already dirty;
otherwise marked dirty and, unless it is being processed, appended. -/
def RateLimitingQueue.Add (q : RateLimitingQueue) (item : String) : RateLimitingQueue :=
  if q.shuttingDown then q
  else if item ∈ q.dirty then q
  else if item ∈ q.processing then { q with dirty := setInsert q.dirty item }
  else { q with dirty := setInsert q.dirty item, queue := q.queue ++ [item] }

/-- The three outcomes of `Get`. -/
inductive GetResult where
  /-- An item was handed out (`shutdown = false`). -/
  | item (key : String) (q : RateLimitingQueue)
  /-- The queue is empty and shutting down (`shutdown = true`). -/
  | shutdown
  /-- The queue is empty and not shutting down: the caller waits. -/
  | blocked

/-- Go `(*Type).Get()`: the head of the queue moves from `dirty` to
`processing`. -/
def RateLimitingQueue.Get (q : RateLimitingQueue) : GetResult :=
  match q.queue with
  | [] => if q.shuttingDown then GetResult.shutdown else GetResult.blocked
  | item :: rest =>
    GetResult.item item
      { q with queue := rest
               processing := setInsert q.processing item
               dirty := setDelete q.dirty item }

/-- Go `(*Type).Done(item)`: the item leaves `processing`; if it was added
again meanwhile it is appended to the queue. -/
def RateLimitingQueue.Done (q : RateLimitingQueue) (item : String) : RateLimitingQueue :=
  let processing := setDelete q.processing item
  if item ∈ q.dirty then { q with processing := processing, queue := q.queue ++ [item] }
  else { q with processing := processing }

/-- Go `NumRequeues(item)`: the rate limiter's failure count of the item. -/
def RateLimitingQueue.NumRequeues (q : RateLimitingQueue) (item : String) : Nat :=
  (q.failures.lookup item).getD 0

/-- Go `Forget(item)`: the rate limiter drops the item's failure count. -/
def RateLimitingQueue.Forget (q : RateLimitingQueue) (item : String) : RateLimitingQueue :=
  { q with failures := q.failures.filter (fun e => e.1 != item) }

/-- Go `AddRateLimited(item)`, that is `AddAfter(item, rateLimiter.When(item))`:
`When` counts one more failure of the item and answers a positive delay;
`AddAfter` then parks the item until the delay has elapsed, unless the queue
is shutting down. -/
def RateLimitingQueue.AddRateLimited (q : RateLimitingQueue) (item : String) :
    RateLimitingQueue :=
  let n := q.NumRequeues item
  let failures := (item, n + 1) :: q.failures.filter (fun e => e.1 != item)
  if q.shuttingDown then { q with failures := failures }
  else { q with failures := failures, waitingForAdd := setInsert q.waitingForAdd item }

/-- The delaying queue's timers firing: every parked item is added. -/
def RateLimitingQueue.deliverWaiting (q : RateLimitingQueue) : RateLimitingQueue :=
  q.waitingForAdd.foldl RateLimitingQueue.Add { q with waitingForAdd := [] }

/-! ## The controller -/

/-- The mutating calls of the API client, `client.NetworkingV1().Ingresses(ns)`. -/
inductive Call where
  | Create (ns : String) (ig : Ingress)
  | Delete (ns : String) (name : String)
  deriving DecidableEq, Repr

/-- The error each client call answers with (`none` when it succeeds). -/
structure Client where
  Create : String → Ingress → Option Error
  Delete : String → String → Option Error

/-- The error the client answers a call with. -/
def Client.answer (client : Client) : Call → Option Error
  | Call.Create ns ig => client.Create ns ig
  | Call.Delete ns name => client.Delete ns name

/-- Go `type controller struct`.  `serviceLister ns name` stands for
`serviceLister.Services(ns).Get(name)`; the code dereferences the returned
Service without a nil check, so its result is a Service or an error, as the
lister promises.  `ingressLister ns name` stands for
`ingressLister.Ingresses(ns).Get(name)` and keeps both Go results, pointer
and error, because `syncService` tests them separately. -/
structure controller where
  client : Client
  ingressLister : String → String → Option Ingress × Option Error
  serviceLister : String → String → Except Error Service
  queue : RateLimitingQueue

/-- Go `const maxRetry = 10`. -/
def maxRetry : Nat := 10

/-- Whether the Service asks for an Ingress: line 102,
`_, ok := service.GetAnnotations()["ingress/http"]`. -/
def wantsIngress (service : Service) : Bool :=
  (service.Annotations.lookup "ingress/http").isSome

/-- Go `(*controller).syncService(key)`.  The result is the list of client
calls issued, in order, and the returned error. -/
def syncService (intSize : Nat) (c : controller) (key : String) : List Call × Option Error :=
  match SplitMetaNamespaceKey key with
  | (_, _, some err) => ([], some err)
  | (namespaceKey, name, none) =>
    match c.serviceLister namespaceKey name with
    | Except.error err =>
      if IsNotFound (some err) then ([], none)
      else ([], some err)
    | Except.ok service =>
      let ok := wantsIngress service
      let (ingress, err) := c.ingressLister namespaceKey name
      if err.isSome ∧ ¬ IsNotFound err then ([], err)
      else if ok ∧ IsNotFound err then
        let ig := constructIngress intSize service
        match c.client.Create namespaceKey ig with
        | some err => ([Call.Create namespaceKey ig], some err)
        | none => ([Call.Create namespaceKey ig], none)
      else if ¬ ok ∧ ingress.isSome then
        match c.client.Delete namespaceKey name with
        | some err => ([Call.Delete namespaceKey name], some err)
        | none => ([Call.Delete namespaceKey name], none)
      else ([], none)

/-- What a worker step leaves behind outside the controller struct: the keys
`syncService` was called with, the client calls issued, and the errors handed
to `runtime.HandleError`. -/
structure Effects where
  syncs : List String
  calls : List Call
  handled : List Error
  deriving DecidableEq, Repr

/-- Go `(*controller).handlerError(key, err)`. -/
def handlerError (c : controller) (fx : Effects) (key : String) (err : Error) :
    controller × Effects :=
  if c.queue.NumRequeues key ≤ maxRetry then
    ({ c with queue := c.queue.AddRateLimited key }, fx)
  else
    ({ c with queue := c.queue.Forget key }, { fx with handled := fx.handled ++ [err] })

/-- Go `(*controller).processNextItem()`.  `none` means the call is still
waiting in `Get`; otherwise the Boolean is the returned value.  The deferred
`Done` runs last. -/
def processNextItem (intSize : Nat) (c : controller) (fx : Effects) :
    Option (Bool × controller × Effects) :=
  match c.queue.Get with
  | GetResult.blocked => none
  | GetResult.shutdown => some (false, c, fx)
  | GetResult.item key q =>
    let c1 := { c with queue := q }
    let (calls, err) := syncService intSize c1 key
    let fx1 := { fx with syncs := fx.syncs ++ [key], calls := fx.calls ++ calls }
    let (c2, fx2) :=
      match err with
      | some e => handlerError c1 fx1 key e
      | none => (c1, fx1)
    some (true, { c2 with queue := c2.queue.Done key }, fx2)

/-- Go `(*controller).worker()`, `for c.processNextItem() {}`, run for at most
`fuel` items; after each item the delays of the parked items elapse.  The
loop stops when `processNextItem` answers false or has nothing left to wait
for. -/
def worker (intSize : Nat) : Nat → controller → Effects → controller × Effects
  | 0, c, fx => (c, fx)
  | fuel + 1, c, fx =>
    match processNextItem intSize c fx with
    | none => (c, fx)
    | some (false, c1, fx1) => (c1, fx1)
    | some (true, c1, fx1) =>
      worker intSize fuel { c1 with queue := c1.queue.deliverWaiting } fx1

/-- Go `(*controller).deleteIngress(obj)` for an `obj` that is an Ingress. -/
def deleteIngress (c : controller) (ingress : Ingress) : controller :=
  match GetControllerOf ingress with
  | none => c
  | some ownerReference =>
    if ownerReference.Kind ≠ "Service" then c
    else { c with queue := c.queue.Add (ingress.Namespace ++ "/" ++ ingress.Name) }

/-! ## The cluster behind the listers and the client -/

/-- The objects the informer caches serve and the client's calls change. -/
structure Cluster where
  services : List Service
  ingresses : List Ingress
  deriving DecidableEq, Repr

/-- The Service lister over the cache: the object of that namespace and name,
or a `NotFound` error. -/
def Cluster.serviceLister (cl : Cluster) (ns name : String) : Except Error Service :=
  match cl.services.find? (fun s => s.Namespace == ns && s.Name == name) with
  | some s => Except.ok s
  | none => Except.error (Error.NotFound "service" name)

/-- The Ingress lister over the cache: the object and a nil error, or a nil
object and a `NotFound` error. -/
def Cluster.ingressLister (cl : Cluster) (ns name : String) : Option Ingress × Option Error :=
  match cl.ingresses.find? (fun i => i.Namespace == ns && i.Name == name) with
  | some i => (some i, none)
  | none => (none, some (Error.NotFound "ingress" name))

/-- An Ingress of that namespace and name exists. -/
def Cluster.ingressExists (cl : Cluster) (ns name : String) : Bool :=
  cl.ingresses.any (fun i => i.Namespace == ns && i.Name == name)

/-- The effect of a client call that succeeded: a created Ingress is stored as
sent, a deleted one is gone. -/
def Cluster.apply (cl : Cluster) : Call → Cluster
  | Call.Create _ ig => { cl with ingresses := cl.ingresses ++ [ig] }
  | Call.Delete ns name =>
    { cl with ingresses := cl.ingresses.filter (fun i => !(i.Namespace == ns && i.Name == name)) }

/-- The effect of a list of successful client calls, in order. -/
def Cluster.applyCalls (cl : Cluster) (calls : List Call) : Cluster :=
  calls.foldl Cluster.apply cl

/-- A controller whose listers read the cluster. -/
def Cluster.controller (cl : Cluster) (client : Client) (queue : RateLimitingQueue) :
    controller :=
  { client := client
    ingressLister := cl.ingressLister
    serviceLister := cl.serviceLister
    queue := queue }

/-- The empty work queue. -/
def emptyQueue : RateLimitingQueue :=
  { queue := [], dirty := [], processing := [], failures := [], waitingForAdd := [],
    shuttingDown := false }

/-- A client all of whose calls succeed. -/
def okClient : Client :=
  { Create := fun _ _ => none, Delete := fun _ _ => none }

/-- A client whose calls all fail with the given error. -/
def failingClient (e : Error) : Client :=
  { Create := fun _ _ => some e, Delete := fun _ _ => some e }

/-! ## Concrete objects used to run the definitions -/

/-- A Service `ns/foo` that asks for an Ingress. -/
def svcWants : Service :=
  { Name := "foo", Namespace := "ns", UID := "uid-1", Annotations := [("ingress/http", "true")] }

/-- A Service `ns/foo` without annotations. -/
def svcPlain : Service :=
  { Name := "foo", Namespace := "ns", UID := "uid-1", Annotations := [] }

/-- A Service `ns/foo` with the given "service/port" annotation. -/
def svcPort (po : String) : Service :=
  { Name := "foo", Namespace := "ns", UID := "uid-1",
    Annotations := [("ingress/http", "true"), ("service/port", po)] }

/-- The Ingress `ns/foo` the controller builds for `svcWants`. -/
def igFoo : Ingress := constructIngress 64 svcWants

/-- An Ingress `ns/foo` whose only owner is a Deployment. -/
def igForeign : Ingress :=
  { igFoo with
    OwnerReferences :=
      [ { APIVersion := "apps/v1", Kind := "Deployment", Name := "foo", UID := "uid-2",
          Controller := some true, BlockOwnerDeletion := some true } ] }

/-- A Service `ns/foo` whose "ingress/http" annotation has the value "false". -/
def svcFlagFalse : Service :=
  { Name := "foo", Namespace := "ns", UID := "uid-1", Annotations := [("ingress/http", "false")] }

/-- The Service carries "ingress/http" with the value "false" and no Ingress exists. -/
def clFlagFalseAbsent : Cluster := { services := [svcFlagFalse], ingresses := [] }

/-- The Service wants an Ingress and none exists. -/
def clWantsAbsent : Cluster := { services := [svcWants], ingresses := [] }

/-- The Service wants an Ingress and one exists. -/
def clWantsPresent : Cluster := { services := [svcWants], ingresses := [igFoo] }

/-- The Service wants no Ingress and one exists. -/
def clPlainPresent : Cluster := { services := [svcPlain], ingresses := [igFoo] }

/-- The Service wants no Ingress and none exists. -/
def clPlainAbsent : Cluster := { services := [svcPlain], ingresses := [] }

/-- No Service, but an Ingress `ns/foo` is left over. -/
def clOrphan : Cluster := { services := [], ingresses := [igFoo] }

/-- No effects yet. -/
def noEffects : Effects := { syncs := [], calls := [], handled := [] }

/-- A client whose delete call answers not-found and whose create succeeds. -/
def goneClient : Client :=
  { Create := fun _ _ => none, Delete := fun _ name => some (Error.NotFound "ingresses" name) }

/-- A controller that has just been handed the key `ns/foo`, with a Service
that wants an Ingress and a client whose every call fails. -/
def failingController : controller :=
  clWantsAbsent.controller (failingClient (Error.Other "boom")) (emptyQueue.Add "ns/foo")

/-- A queue holding exactly the key, ready, with the given failure counts. -/
def pendingQueue (key : String) (f : List (String × Nat)) : RateLimitingQueue :=
  { queue := [key], dirty := [key], processing := [], failures := f, waitingForAdd := [],
    shuttingDown := false }

/-- The queue once the key is dropped. -/
def drainedQueue (key : String) (f : List (String × Nat)) : RateLimitingQueue :=
  { queue := [], dirty := [], processing := [], failures := f.filter (fun e => e.1 != key),
    waitingForAdd := [], shuttingDown := false }

/-! ## Facts about the listers over a cluster -/

/-- A Service the lister finds has the namespace and name asked for. -/
theorem serviceLister_ok {cl : Cluster} {ns name : String} {s : Service}
    (h : cl.serviceLister ns name = Except.ok s) : s.Namespace = ns ∧ s.Name = name := by
  unfold Cluster.serviceLister at h
  split at h
  · next s1 hfind =>
    have hp := List.find?_some hfind
    injection h with h
    subst h
    simpa using hp
  · cases h

/-- The Ingress lister answers not-found exactly when no such Ingress exists. -/
theorem ingressLister_cases (cl : Cluster) (ns name : String) :
    (cl.ingressLister ns name = (none, some (Error.NotFound "ingress" name)) ∧
        cl.ingressExists ns name = false) ∨
      (∃ i, cl.ingressLister ns name = (some i, none) ∧ cl.ingressExists ns name = true) := by
  unfold Cluster.ingressLister Cluster.ingressExists
  cases hfind : cl.ingresses.find? (fun i => i.Namespace == ns && i.Name == name) with
  | none =>
    left
    refine ⟨rfl, ?_⟩
    rw [List.find?_eq_none] at hfind
    rw [List.any_eq_false]
    intro x hx
    simpa using hfind x hx
  | some i =>
    right
    refine ⟨i, rfl, ?_⟩
    rw [List.any_eq_true]
    have hp := List.find?_some hfind
    exact ⟨i, List.mem_of_find?_eq_some hfind, hp⟩

/-- After a create of `ns/name` is applied the Ingress exists. -/
theorem ingressExists_create (cl : Cluster) (ns name : String) (ig : Ingress)
    (hns : ig.Namespace = ns) (hname : ig.Name = name) :
    (cl.apply (Call.Create ns ig)).ingressExists ns name = true := by
  simp [Cluster.apply, Cluster.ingressExists, hns, hname]

/-- After a delete of `ns/name` is applied the Ingress does not exist. -/
theorem ingressExists_delete (cl : Cluster) (ns name : String) :
    (cl.apply (Call.Delete ns name)).ingressExists ns name = false := by
  simp only [Cluster.apply, Cluster.ingressExists]
  rw [List.any_eq_false]
  intro x hx
  have := (List.mem_filter.mp hx).2
  simp only [Bool.not_eq_true', Bool.not_eq_eq_eq_not, Bool.not_true] at this
  simpa using this

/-- The reconciler's result over a cluster, by the four cases of the decision
table, for a key that decodes and a Service found in the cache. -/
theorem syncService_table (intSize : Nat) (cl : Cluster) (client : Client)
    (queue : RateLimitingQueue) (key ns name : String) (s : Service)
    (hkey : SplitMetaNamespaceKey key = (ns, name, none))
    (hsvc : cl.serviceLister ns name = Except.ok s) :
    syncService intSize (cl.controller client queue) key =
      if wantsIngress s = true ∧ cl.ingressExists ns name = false then
        ([Call.Create ns (constructIngress intSize s)],
          client.Create ns (constructIngress intSize s))
      else if wantsIngress s = false ∧ cl.ingressExists ns name = true then
        ([Call.Delete ns name], client.Delete ns name)
      else ([], none) := by
  rcases ingressLister_cases cl ns name with ⟨hl, hex⟩ | ⟨i, hl, hex⟩
  · cases hw : wantsIngress s
    · simp [syncService, hkey, Cluster.controller, hsvc, hl, hex, hw, IsNotFound]
    · simp only [syncService, hkey, Cluster.controller, hsvc, hl, hex, hw, IsNotFound]
      cases hc : client.Create ns (constructIngress intSize s) <;> simp
  · cases hw : wantsIngress s
    · simp only [syncService, hkey, Cluster.controller, hsvc, hl, hex, hw, IsNotFound]
      cases hc : client.Delete ns name <;> simp
    · simp [syncService, hkey, Cluster.controller, hsvc, hl, hex, hw, IsNotFound]

/-- Client calls never change the Services. -/
theorem applyCalls_services (cl : Cluster) (calls : List Call) :
    (cl.applyCalls calls).services = cl.services := by
  unfold Cluster.applyCalls
  induction calls generalizing cl with
  | nil => rfl
  | cons call rest ih =>
    rw [List.foldl_cons, ih]
    cases call <;> rfl

/-- Client calls never change what the Service lister answers. -/
theorem applyCalls_serviceLister (cl : Cluster) (calls : List Call) (ns name : String) :
    (cl.applyCalls calls).serviceLister ns name = cl.serviceLister ns name := by
  unfold Cluster.serviceLister
  rw [applyCalls_services]

/-! ## Decoding keys -/

/-- A string without a slash is one piece. -/
theorem splitSlash_no_slash (l : List Char) (h : '/' ∉ l) : splitSlash l = [l] := by
  induction l with
  | nil => rfl
  | cons c cs ih =>
    have hc : c ≠ '/' := fun hc => h (by simp [hc])
    have hcs : '/' ∉ cs := fun hm => h (List.mem_cons_of_mem _ hm)
    simp [splitSlash, hc, ih hcs]

/-- The first slash ends the first piece. -/
theorem splitSlash_append (a b : List Char) (h : '/' ∉ a) :
    splitSlash (a ++ '/' :: b) = a :: splitSlash b := by
  induction a with
  | nil => simp [splitSlash]
  | cons c cs ih =>
    have hc : c ≠ '/' := fun hc => h (by simp [hc])
    have hcs : '/' ∉ cs := fun hm => h (List.mem_cons_of_mem _ hm)
    simp [splitSlash, hc, ih hcs]

/-- Every key `namespace/name` whose two parts hold no slash decodes to its
parts. -/
theorem SplitMetaNamespaceKey_join (ns name : String) (hns : '/' ∉ ns.toList)
    (hname : '/' ∉ name.toList) :
    SplitMetaNamespaceKey (ns ++ "/" ++ name) = (ns, name, none) := by
  have hl : (ns ++ "/" ++ name).toList = ns.toList ++ '/' :: name.toList := by
    simp [String.toList]
  unfold SplitMetaNamespaceKey
  rw [hl, splitSlash_append _ _ hns, splitSlash_no_slash _ hname]
  rfl

/-! ## The reconciler -/

/-- A key is found by `List.lookup`, as by a Go map read `_, ok := m[k]`,
exactly when some pair with that key is in the list. -/
theorem lookup_isSome_iff (l : List (String × String)) (k : String) :
    (l.lookup k).isSome = true ↔ ∃ v, (k, v) ∈ l := by
  induction l with
  | nil => simp [List.lookup]
  | cons kv rest ih =>
    obtain ⟨k1, v1⟩ := kv
    by_cases hk : k = k1
    · subst hk
      simp [List.lookup]
    · have hk2 : (k == k1) = false := by simpa using hk
      simp only [List.lookup, hk2, ih, List.mem_cons, Prod.mk.injEq]
      constructor
      · rintro ⟨w, hw⟩
        exact ⟨w, Or.inr hw⟩
      · rintro ⟨w, hw | hw⟩
        · exact absurd hw.1 hk
        · exact ⟨w, hw⟩

/-- The request flag is the presence of the key "ingress/http" among the
annotations, whatever its value. -/
theorem wantsIngress_iff (s : Service) :
    wantsIngress s = true ↔ ∃ v, ("ingress/http", v) ∈ s.Annotations :=
  lookup_isSome_iff s.Annotations "ingress/http"

/-- Convergence in terms of the flag `ok` of line 102: once the issued call has
succeeded and is applied, the Ingress exists exactly when the flag is set. -/
theorem syncService_converges_flag (intSize : Nat) (cl : Cluster) (client : Client)
    (queue : RateLimitingQueue) (key ns name : String) (s : Service)
    (hkey : SplitMetaNamespaceKey key = (ns, name, none))
    (hsvc : cl.serviceLister ns name = Except.ok s)
    (hok : ∀ call ∈ (syncService intSize (cl.controller client queue) key).1,
      client.answer call = none) :
    (syncService intSize (cl.controller client queue) key).2 = none ∧
      ((cl.applyCalls (syncService intSize (cl.controller client queue) key).1).ingressExists
          ns name = true ↔ wantsIngress s = true) := by
  obtain ⟨hns, hname⟩ := serviceLister_ok hsvc
  rw [syncService_table intSize cl client queue key ns name s hkey hsvc] at hok ⊢
  by_cases h1 : wantsIngress s = true ∧ cl.ingressExists ns name = false
  · rw [if_pos h1] at hok ⊢
    have hc := hok (Call.Create ns (constructIngress intSize s)) (List.mem_singleton.mpr rfl)
    refine ⟨hc, ?_⟩
    have hex := ingressExists_create cl ns name (constructIngress intSize s) hns hname
    simp only [Cluster.applyCalls, List.foldl_cons, List.foldl_nil]
    rw [hex]
    simp [h1.1]
  · rw [if_neg h1] at hok ⊢
    by_cases h2 : wantsIngress s = false ∧ cl.ingressExists ns name = true
    · rw [if_pos h2] at hok ⊢
      have hd := hok (Call.Delete ns name) (List.mem_singleton.mpr rfl)
      refine ⟨hd, ?_⟩
      have hex := ingressExists_delete cl ns name
      simp only [Cluster.applyCalls, List.foldl_cons, List.foldl_nil]
      rw [hex]
      simp [h2.1]
    · rw [if_neg h2]
      refine ⟨rfl, ?_⟩
      simp only [Cluster.applyCalls, List.foldl_nil]
      cases hw : wantsIngress s <;> cases hx : cl.ingressExists ns name <;> simp_all

/-- C1 (convergence): for a key that decodes to `ns/name` (as every key
`namespace/name` does, `SplitMetaNamespaceKey_join`) and whose Service is
found in the cache, whatever the Service's annotations and whether or not the
lister finds an Ingress `ns/name`, if every client call that `syncService`
issues succeeds and is applied to the cluster, then `syncService` returns nil
and afterwards an Ingress `ns/name` exists exactly when the Service's
annotations contain the key "ingress/http", whatever its value. -/
theorem syncService_converges (intSize : Nat) (cl : Cluster) (client : Client)
    (queue : RateLimitingQueue) (key ns name : String) (s : Service)
    (hkey : SplitMetaNamespaceKey key = (ns, name, none))
    (hsvc : cl.serviceLister ns name = Except.ok s)
    (hok : ∀ call ∈ (syncService intSize (cl.controller client queue) key).1,
      client.answer call = none) :
    (syncService intSize (cl.controller client queue) key).2 = none ∧
      ((cl.applyCalls (syncService intSize (cl.controller client queue) key).1).ingressExists
          ns name = true ↔ ∃ v, ("ingress/http", v) ∈ s.Annotations) := by
  have h := syncService_converges_flag intSize cl client queue key ns name s hkey hsvc hok
  have hflag : wantsIngress s = (s.Annotations.lookup "ingress/http").isSome := rfl
  refine ⟨h.1, h.2.trans ?_⟩
  rw [hflag]
  exact lookup_isSome_iff s.Annotations "ingress/http"

/-- C2 (idempotence): for every key and every cluster, if a first
`syncService` returns nil and the calls it issued are applied to the cluster,
a second `syncService` for the same key on the resulting cluster, with any
client and queue, issues no call and returns nil. -/
theorem syncService_idempotent (intSize : Nat) (cl : Cluster) (client client2 : Client)
    (queue queue2 : RateLimitingQueue) (key : String)
    (hfirst : (syncService intSize (cl.controller client queue) key).2 = none) :
    syncService intSize
        ((cl.applyCalls (syncService intSize (cl.controller client queue) key).1).controller
          client2 queue2) key = ([], none) := by
  rcases hk : SplitMetaNamespaceKey key with ⟨ns, name, e⟩
  cases e with
  | some err => simp [syncService, hk] at hfirst
  | none =>
    cases hs : cl.serviceLister ns name with
    | error e =>
      have h1 : syncService intSize (cl.controller client queue) key =
          if IsNotFound (some e) then ([], none) else ([], some e) := by
        simp [syncService, hk, Cluster.controller, hs]
      rw [h1] at hfirst ⊢
      by_cases hnf : IsNotFound (some e) = true
      · simp only [hnf, if_true, Cluster.applyCalls, List.foldl_nil]
        simp [syncService, hk, Cluster.controller, hs, hnf]
      · simp [hnf] at hfirst
    | ok s =>
      obtain ⟨hns, hname⟩ := serviceLister_ok hs
      have hs2 := fun calls => (applyCalls_serviceLister cl calls ns name).trans hs
      rw [syncService_table intSize _ client2 queue2 key ns name s hk (hs2 _)]
      rw [syncService_table intSize cl client queue key ns name s hk hs] at hfirst ⊢
      by_cases h1 : wantsIngress s = true ∧ cl.ingressExists ns name = false
      · simp only [if_pos h1, Cluster.applyCalls, List.foldl_cons, List.foldl_nil]
        rw [ingressExists_create cl ns name (constructIngress intSize s) hns hname]
        simp [h1.1]
      · simp only [if_neg h1] at hfirst ⊢
        by_cases h2 : wantsIngress s = false ∧ cl.ingressExists ns name = true
        · simp only [if_pos h2, Cluster.applyCalls, List.foldl_cons, List.foldl_nil]
          rw [ingressExists_delete cl ns name]
          simp [h2.1]
        · simp only [if_neg h2, Cluster.applyCalls, List.foldl_nil, if_neg h1]

/-- C10 (absent Service): for a key that decodes to `ns/name`, if the Service
lister answers with a not-found error, `syncService` returns nil and issues
neither a create nor a delete call, whatever the Ingress lister and the
client would answer. -/
theorem syncService_absent_service (intSize : Nat) (c : controller) (key ns name : String)
    (e : Error) (hkey : SplitMetaNamespaceKey key = (ns, name, none))
    (hsvc : c.serviceLister ns name = Except.error e)
    (hnf : IsNotFound (some e) = true) :
    syncService intSize c key = ([], none) := by
  simp [syncService, hkey, hsvc, hnf]

/-- Witness of C1 for the key "ns/foo", at the four rows of the decision table
and at a flag whose value is "false": the annotated Service has its Ingress
afterwards (created when absent, kept when present), the Service without the
annotation has none (deleted when present, not created when absent).  The
last part lists the calls issued in the five runs. -/
theorem syncService_converges_witness :
    ((syncService 64 (clWantsAbsent.controller okClient emptyQueue) "ns/foo").2 = none ∧
      (clWantsAbsent.applyCalls
          (syncService 64 (clWantsAbsent.controller okClient emptyQueue) "ns/foo").1).ingressExists
          "ns" "foo" = true) ∧
    ((syncService 64 (clPlainPresent.controller okClient emptyQueue) "ns/foo").2 = none ∧
      (clPlainPresent.applyCalls
          (syncService 64 (clPlainPresent.controller okClient emptyQueue) "ns/foo").1).ingressExists
          "ns" "foo" = false) ∧
    ((syncService 64 (clWantsPresent.controller okClient emptyQueue) "ns/foo").2 = none ∧
      (clWantsPresent.applyCalls
          (syncService 64 (clWantsPresent.controller okClient emptyQueue) "ns/foo").1).ingressExists
          "ns" "foo" = true) ∧
    ((syncService 64 (clPlainAbsent.controller okClient emptyQueue) "ns/foo").2 = none ∧
      (clPlainAbsent.applyCalls
          (syncService 64 (clPlainAbsent.controller okClient emptyQueue) "ns/foo").1).ingressExists
          "ns" "foo" = false) ∧
    ((syncService 64 (clFlagFalseAbsent.controller okClient emptyQueue) "ns/foo").2 = none ∧
      (clFlagFalseAbsent.applyCalls
          (syncService 64 (clFlagFalseAbsent.controller okClient emptyQueue)
            "ns/foo").1).ingressExists "ns" "foo" = true) ∧
    ((syncService 64 (clWantsAbsent.controller okClient emptyQueue) "ns/foo").1 =
        [Call.Create "ns" igFoo] ∧
      (syncService 64 (clPlainPresent.controller okClient emptyQueue) "ns/foo").1 =
        [Call.Delete "ns" "foo"] ∧
      (syncService 64 (clWantsPresent.controller okClient emptyQueue) "ns/foo").1 = [] ∧
      (syncService 64 (clPlainAbsent.controller okClient emptyQueue) "ns/foo").1 = [] ∧
      (syncService 64 (clFlagFalseAbsent.controller okClient emptyQueue) "ns/foo").1 =
        [Call.Create "ns" (constructIngress 64 svcFlagFalse)]) := by
  have h1 := syncService_converges 64 clWantsAbsent okClient emptyQueue "ns/foo" "ns" "foo"
    svcWants (by decide) (by rfl) (by intro call _; cases call <;> rfl)
  have h2 := syncService_converges 64 clPlainPresent okClient emptyQueue "ns/foo" "ns" "foo"
    svcPlain (by decide) (by rfl) (by intro call _; cases call <;> rfl)
  have h3 := syncService_converges 64 clWantsPresent okClient emptyQueue "ns/foo" "ns" "foo"
    svcWants (by decide) (by rfl) (by intro call _; cases call <;> rfl)
  have h4 := syncService_converges 64 clPlainAbsent okClient emptyQueue "ns/foo" "ns" "foo"
    svcPlain (by decide) (by rfl) (by intro call _; cases call <;> rfl)
  have h5 := syncService_converges 64 clFlagFalseAbsent okClient emptyQueue "ns/foo" "ns" "foo"
    svcFlagFalse (by decide) (by rfl) (by intro call _; cases call <;> rfl)
  have hplain : ¬ ∃ v, ("ingress/http", v) ∈ svcPlain.Annotations := by
    rintro ⟨v, hv⟩
    cases hv
  refine ⟨⟨h1.1, h1.2.mpr ⟨"true", by decide⟩⟩, ⟨h2.1, ?_⟩, ⟨h3.1, h3.2.mpr ⟨"true", by decide⟩⟩,
    ⟨h4.1, ?_⟩, ⟨h5.1, h5.2.mpr ⟨"false", by decide⟩⟩, by decide⟩
  · exact Bool.eq_false_iff.mpr (fun hx => hplain (h2.2.mp hx))
  · exact Bool.eq_false_iff.mpr (fun hx => hplain (h4.2.mp hx))

/-- Witness of C2: after the create for "ns/foo" succeeded and was applied, a
second run, even with a client that would fail, issues nothing and returns nil. -/
theorem syncService_idempotent_witness :
    (syncService 64 (clWantsAbsent.controller okClient emptyQueue) "ns/foo").1 =
        [Call.Create "ns" igFoo] ∧
      syncService 64
        ((clWantsAbsent.applyCalls
            (syncService 64 (clWantsAbsent.controller okClient emptyQueue) "ns/foo").1).controller
          (failingClient (Error.Other "boom")) emptyQueue) "ns/foo" = ([], none) :=
  ⟨by decide,
    syncService_idempotent 64 clWantsAbsent okClient (failingClient (Error.Other "boom"))
      emptyQueue emptyQueue "ns/foo" (by decide)⟩

/-- Witness of C10: with no Service `ns/foo` in the cache and an Ingress
`ns/foo` present, nothing is issued and nil is returned. -/
theorem syncService_absent_service_witness :
    clOrphan.ingressExists "ns" "foo" = true ∧
      syncService 64 (clOrphan.controller (failingClient (Error.Other "boom")) emptyQueue)
        "ns/foo" = ([], none) :=
  ⟨by decide,
    syncService_absent_service 64
      (clOrphan.controller (failingClient (Error.Other "boom")) emptyQueue) "ns/foo" "ns" "foo"
      (Error.NotFound "service" "foo") (by decide) (by rfl) (by decide)⟩

/-! ## The desired-state builder -/

/-- C6 (shape of the built Ingress): for every Service `s`, the Ingress of
`constructIngress` has the name and namespace of `s`; its owner references are
exactly one reference, a controller reference of kind "Service" to `s`; its
spec has exactly one rule, with exactly one HTTP path "/" of path type Prefix
whose backend is the service named `s.Name`; the rule's host is the
"rule/host" annotation when present and "example.com" otherwise; and without
a "service/port" annotation the backend port number is 80. -/
theorem constructIngress_shape (intSize : Nat) (s : Service) :
    (constructIngress intSize s).Name = s.Name ∧
    (constructIngress intSize s).Namespace = s.Namespace ∧
    (constructIngress intSize s).OwnerReferences =
      [ { APIVersion := "v1", Kind := "Service", Name := s.Name, UID := s.UID,
          Controller := some true, BlockOwnerDeletion := some true } ] ∧
    GetControllerOf (constructIngress intSize s) =
      some { APIVersion := "v1", Kind := "Service", Name := s.Name, UID := s.UID,
             Controller := some true, BlockOwnerDeletion := some true } ∧
    (∃ host port,
      (constructIngress intSize s).Spec.Rules =
        [ { Host := host
            HTTP := some
              { Paths :=
                  [ { Path := "/"
                      PathType := some PathType.Prefix
                      Backend :=
                        { Service := some
                            { Name := s.Name, Port := { Name := "", Number := port } } } } ] } } ] ∧
      (∀ h, s.Annotations.lookup "rule/host" = some h → host = h) ∧
      (s.Annotations.lookup "rule/host" = none → host = "example.com") ∧
      (s.Annotations.lookup "service/port" = none → port = 80)) := by
  refine ⟨rfl, rfl, rfl, rfl, _, _, rfl, ?_, ?_, ?_⟩
  · intro h hh
    simp [hh]
  · intro hh
    simp [hh]
  · intro hp
    simp [hp]

/-- Witness of C6 at the Service `ns/foo` without overrides: host
"example.com", port 80. -/
theorem constructIngress_shape_witness :
    (constructIngress 64 svcWants).Name = "foo" ∧
    (constructIngress 64 svcWants).Namespace = "ns" ∧
    (constructIngress 64 svcWants).Spec.Rules =
      [ { Host := "example.com"
          HTTP := some
            { Paths :=
                [ { Path := "/"
                    PathType := some PathType.Prefix
                    Backend :=
                      { Service := some
                          { Name := "foo", Port := { Name := "", Number := 80 } } } } ] } } ] := by
  obtain ⟨h1, h2, _, _, host, port, hr, _, hhost, hport⟩ := constructIngress_shape 64 svcWants
  refine ⟨h1, h2, ?_⟩
  rw [hr, hhost (by decide), hport (by decide)]
  rfl

/-- The counterexample to C5 as stated: on a 64-bit platform `strconv.Atoi`
parses "2147483648" without error to 2147483648, and the built Ingress's
backend port number is -2147483648. -/
theorem port_override_wraps :
    (svcPort "2147483648").Annotations.lookup "service/port" = some "2147483648" ∧
    Atoi 64 "2147483648" = (2147483648, none) ∧
    (constructIngress 64 (svcPort "2147483648")).backendPort = some (-2147483648) ∧
    (constructIngress 64 (svcPort "2147483648")).backendPort ≠ some 2147483648 := by
  decide

/-- C5 as amended: for every Service whose "service/port" annotation
`strconv.Atoi` parses without error to `n`, the built Ingress's backend port
number is `int32(n)`, and that is `n` itself exactly when
`-2^31 ≤ n < 2^31`. -/
theorem port_override_int32 (intSize : Nat) (s : Service) (po : String) (n : Int)
    (hpo : s.Annotations.lookup "service/port" = some po)
    (hparse : Atoi intSize po = (n, none)) :
    (constructIngress intSize s).backendPort = some (toInt32 n) ∧
      (toInt32 n = n ↔ -2 ^ 31 ≤ n ∧ n < 2 ^ 31) := by
  constructor
  · simp [constructIngress, Ingress.backendPort, hpo, hparse]
  · unfold toInt32
    omega

/-- Witness of the amended C5 at the annotation "8080". -/
theorem port_override_int32_witness :
    (constructIngress 64 (svcPort "8080")).backendPort = some (toInt32 8080) ∧
      (toInt32 8080 = 8080 ↔ -2 ^ 31 ≤ (8080 : Int) ∧ (8080 : Int) < 2 ^ 31) :=
  port_override_int32 64 (svcPort "8080") "8080" 8080 (by decide) (by decide)

/-- C4 on the code: with the "service/port" annotation "abc", or the empty
string, `strconv.Atoi` answers 0 with a syntax error and the built Ingress's
backend port number is 0, not the default 80. -/
theorem port_unparsable_is_zero :
    Atoi 64 "abc" = (0, some (Error.SyntaxError "abc")) ∧
    (constructIngress 64 (svcPort "abc")).backendPort = some 0 ∧
    Atoi 64 "" = (0, some (Error.SyntaxError "")) ∧
    (constructIngress 64 (svcPort "")).backendPort = some 0 ∧
    (constructIngress 32 (svcPort "abc")).backendPort = some 0 ∧
    (constructIngress 64 svcWants).backendPort = some 80 := by
  decide

/-! ## The event handler -/

/-- C9 (owner attribution): for every deleted Ingress without owner
references, or whose owner references are all of a kind other than "Service",
`deleteIngress` leaves the work queue as it was. -/
theorem deleteIngress_not_service_owned (c : controller) (ingress : Ingress)
    (h : ingress.OwnerReferences = [] ∨ ∀ r ∈ ingress.OwnerReferences, r.Kind ≠ "Service") :
    (deleteIngress c ingress).queue = c.queue := by
  unfold deleteIngress
  cases hget : GetControllerOf ingress with
  | none => rfl
  | some r =>
    have hmem : r ∈ ingress.OwnerReferences := List.mem_of_find?_eq_some hget
    have hkind : r.Kind ≠ "Service" := by
      rcases h with h | h
      · rw [h] at hmem
        cases hmem
      · exact h r hmem
    simp [hkind]

/-- Witness of C9: an Ingress without owner references and one owned by a
Deployment, on a queue that already holds a key. -/
theorem deleteIngress_not_service_owned_witness :
    (deleteIngress failingController { igFoo with OwnerReferences := [] }).queue =
        failingController.queue ∧
      (deleteIngress failingController igForeign).queue = failingController.queue :=
  ⟨deleteIngress_not_service_owned failingController { igFoo with OwnerReferences := [] }
      (Or.inl rfl),
    deleteIngress_not_service_owned failingController igForeign (Or.inr (by decide))⟩

/-- A deleted Ingress that the controller built is attributed to its Service:
the key `ns/foo` is added to the queue. -/
theorem deleteIngress_service_owned :
    (deleteIngress (clOrphan.controller okClient emptyQueue) igFoo).queue =
      emptyQueue.Add "ns/foo" := by
  decide

/-! ## Errors of the client calls -/

/-- An error of the delete call is returned as it is, whatever its reason:
lines 119-122 do not classify it. -/
theorem syncService_delete_error (intSize : Nat) (c : controller) (key ns name : String)
    (s : Service) (ig : Ingress) (e : Error)
    (hkey : SplitMetaNamespaceKey key = (ns, name, none))
    (hsvc : c.serviceLister ns name = Except.ok s)
    (hwants : wantsIngress s = false)
    (hing : c.ingressLister ns name = (some ig, none))
    (hdel : c.client.Delete ns name = some e) :
    syncService intSize c key = ([Call.Delete ns name], some e) := by
  simp [syncService, hkey, hsvc, hwants, hing, hdel, IsNotFound]

/-- C7 on the code: the Service `ns/foo` has no "ingress/http" annotation,
the lister finds the Ingress `ns/foo`, and the client's delete answers
not-found.  `syncService` returns that error; `processNextItem` therefore
calls `handlerError`, which counts one failure and requeues the key. -/
theorem delete_not_found_is_returned :
    wantsIngress svcPlain = false ∧
    clPlainPresent.ingressLister "ns" "foo" = (some igFoo, none) ∧
    syncService 64 (clPlainPresent.controller goneClient emptyQueue) "ns/foo" =
      ([Call.Delete "ns" "foo"], some (Error.NotFound "ingresses" "foo")) ∧
    (processNextItem 64 (clPlainPresent.controller goneClient (emptyQueue.Add "ns/foo"))
        noEffects).map (fun r => (r.1, r.2.1.queue)) =
      some (true,
        { queue := [], dirty := [], processing := [], failures := [("ns/foo", 1)],
          waitingForAdd := ["ns/foo"], shuttingDown := false }) := by
  decide

/-! ## The retry policy -/

/-- The reconciler does not read the queue. -/
theorem syncService_queue (intSize : Nat) (c : controller) (q : RateLimitingQueue)
    (key : String) :
    syncService intSize { c with queue := q } key = syncService intSize c key := rfl

/-- C3 on the code: the key `ns/foo` starts with retry counter 0 and its
`syncService` fails every time.  After 11 attempts the counter is 11 and the
key is queued once more; the 12th attempt is the one after which the error is
handed to `HandleError`, the counter is forgotten and the key is dropped; the
worker then has nothing left to do.  The attempts number 12 = maxRetry + 2. -/
theorem failing_sync_attempts :
    (syncService 64 failingController "ns/foo").2 = some (Error.Other "boom") ∧
    failingController.queue.NumRequeues "ns/foo" = 0 ∧
    (worker 64 11 failingController noEffects).2.syncs = List.replicate 11 "ns/foo" ∧
    (worker 64 11 failingController noEffects).2.handled = [] ∧
    (worker 64 11 failingController noEffects).1.queue =
      { queue := ["ns/foo"], dirty := ["ns/foo"], processing := [],
        failures := [("ns/foo", 11)], waitingForAdd := [], shuttingDown := false } ∧
    (worker 64 12 failingController noEffects).2.syncs = List.replicate (maxRetry + 2) "ns/foo" ∧
    (worker 64 12 failingController noEffects).2.handled = [Error.Other "boom"] ∧
    (worker 64 12 failingController noEffects).1.queue = emptyQueue ∧
    (worker 64 100 failingController noEffects).2.syncs = List.replicate 12 "ns/foo" := by
  decide

/-- A successful worker step leaves every retry counter as it was: neither
`Get` nor `Done` touches the rate limiter, and `Forget` is not called. -/
theorem processNextItem_success_keeps_counter (intSize : Nat) (c c1 : controller)
    (fx fx1 : Effects) (key : String) (q : RateLimitingQueue) (k : String)
    (hget : c.queue.Get = GetResult.item key q)
    (hsync : (syncService intSize c key).2 = none)
    (hstep : processNextItem intSize c fx = some (true, c1, fx1)) :
    c1.queue.NumRequeues k = c.queue.NumRequeues k := by
  have hq : q.failures = c.queue.failures := by
    unfold RateLimitingQueue.Get at hget
    split at hget
    · split at hget <;> cases hget
    · injection hget with _ hq
      rw [← hq]
  rw [← syncService_queue intSize c q key] at hsync
  unfold processNextItem at hstep
  rw [hget] at hstep
  simp only [] at hstep
  rcases hres : syncService intSize { c with queue := q } key with ⟨calls, err⟩
  rw [hres] at hsync hstep
  simp only at hsync
  subst hsync
  simp only [Option.some.injEq, Prod.mk.injEq, true_and] at hstep
  obtain ⟨hc1, _⟩ := hstep
  rw [← hc1]
  simp only [RateLimitingQueue.NumRequeues, RateLimitingQueue.Done]
  split <;> simp [hq]

/-- C8 on the code: after three failed attempts the retry counter of `ns/foo`
is 3; the next attempt, with a client whose create succeeds, returns nil, and
`NumRequeues("ns/foo")` is still 3 afterwards. -/
theorem success_keeps_retry_counter :
    (worker 64 3 failingController noEffects).1.queue.NumRequeues "ns/foo" = 3 ∧
    (syncService 64
        (clWantsAbsent.controller okClient (worker 64 3 failingController noEffects).1.queue)
        "ns/foo").2 = none ∧
    (processNextItem 64
        (clWantsAbsent.controller okClient (worker 64 3 failingController noEffects).1.queue)
        noEffects).map (fun r => (r.1, r.2.1.queue.NumRequeues "ns/foo", r.2.2.handled)) =
      some (true, 3, []) := by
  decide

/-- A worker on an empty queue that is not shutting down waits in `Get`. -/
theorem worker_blocked (intSize fuel : Nat) (c : controller) (fx : Effects)
    (hq : c.queue.queue = []) (hs : c.queue.shuttingDown = false) :
    worker intSize fuel c fx = (c, fx) := by
  cases fuel with
  | zero => rfl
  | succ n => simp [worker, processNextItem, RateLimitingQueue.Get, hq, hs]

/-- A failed attempt within the bound: the failure is counted and the key parked. -/
theorem step_requeue (intSize : Nat) (c : controller) (key : String) (e : Error)
    (f : List (String × Nat)) (fx : Effects)
    (hfail : (syncService intSize c key).2 = some e)
    (hn : (f.lookup key).getD 0 ≤ maxRetry) :
    processNextItem intSize { c with queue := pendingQueue key f } fx =
      some (true,
        { c with queue :=
            { queue := [], dirty := [], processing := [],
              failures := (key, (f.lookup key).getD 0 + 1) :: f.filter (fun e => e.1 != key),
              waitingForAdd := [key], shuttingDown := false } },
        { fx with syncs := fx.syncs ++ [key],
                  calls := fx.calls ++ (syncService intSize c key).1 }) := by
  rcases hres : syncService intSize c key with ⟨calls, err⟩
  rw [hres] at hfail
  simp only at hfail
  subst hfail
  simp [processNextItem, RateLimitingQueue.Get, pendingQueue, setInsert, setDelete,
    syncService_queue, hres, handlerError, RateLimitingQueue.NumRequeues, hn,
    RateLimitingQueue.AddRateLimited, RateLimitingQueue.Done]

/-- A failed attempt beyond the bound: the error is handled, the counter forgotten. -/
theorem step_drop (intSize : Nat) (c : controller) (key : String) (e : Error)
    (f : List (String × Nat)) (fx : Effects)
    (hfail : (syncService intSize c key).2 = some e)
    (hn : maxRetry < (f.lookup key).getD 0) :
    processNextItem intSize { c with queue := pendingQueue key f } fx =
      some (true,
        { c with queue := drainedQueue key f },
        { syncs := fx.syncs ++ [key],
          calls := fx.calls ++ (syncService intSize c key).1,
          handled := fx.handled ++ [e] }) := by
  rcases hres : syncService intSize c key with ⟨calls, err⟩
  rw [hres] at hfail
  simp only at hfail
  subst hfail
  have hn2 : ¬ (f.lookup key).getD 0 ≤ maxRetry := by omega
  simp [processNextItem, RateLimitingQueue.Get, pendingQueue, drainedQueue, setInsert, setDelete,
    syncService_queue, hres, handlerError, RateLimitingQueue.NumRequeues, hn2,
    RateLimitingQueue.Forget, RateLimitingQueue.Done]


/-- The parked key becomes ready again once its delay has elapsed. -/
theorem deliverWaiting_requeued (key : String) (f : List (String × Nat)) :
    RateLimitingQueue.deliverWaiting
        { queue := [], dirty := [], processing := [], failures := f, waitingForAdd := [key],
          shuttingDown := false } = pendingQueue key f := by
  simp [RateLimitingQueue.deliverWaiting, RateLimitingQueue.Add, setInsert, pendingQueue]

/-- With nothing parked, elapsing delays change nothing. -/
theorem deliverWaiting_drained (key : String) (f : List (String × Nat)) :
    (drainedQueue key f).deliverWaiting = drainedQueue key f := by
  simp [RateLimitingQueue.deliverWaiting, drainedQueue]

/-- With `m` requeues left before the bound is exceeded, a key that always fails
is attempted `m + 1` more times and then dropped. -/
theorem worker_failing (intSize : Nat) (c : controller) (key : String) (e : Error)
    (hfail : (syncService intSize c key).2 = some e) :
    ∀ (m : Nat) (f : List (String × Nat)) (fx : Effects) (fuel : Nat),
      (f.lookup key).getD 0 + m = maxRetry + 1 → m + 1 ≤ fuel →
      (worker intSize fuel { c with queue := pendingQueue key f } fx).2.syncs =
          fx.syncs ++ List.replicate (m + 1) key ∧
        (worker intSize fuel { c with queue := pendingQueue key f } fx).2.handled =
          fx.handled ++ [e] ∧
        (worker intSize fuel { c with queue := pendingQueue key f } fx).1.queue =
          drainedQueue key f := by
  intro m
  induction m with
  | zero =>
    intro f fx fuel hn hfuel
    obtain ⟨fuel1, rfl⟩ : ∃ k, fuel = k + 1 := ⟨fuel - 1, by omega⟩
    have hdrop := step_drop intSize c key e f fx hfail (by omega)
    rw [worker, hdrop]
    simp only [deliverWaiting_drained]
    rw [worker_blocked intSize fuel1 _ _ rfl rfl]
    simp
  | succ m ih =>
    intro f fx fuel hn hfuel
    obtain ⟨fuel1, rfl⟩ : ∃ k, fuel = k + 1 := ⟨fuel - 1, by omega⟩
    have hstep := step_requeue intSize c key e f fx hfail (by omega)
    rw [worker, hstep]
    simp only [deliverWaiting_requeued]
    have hlook : (((key, (f.lookup key).getD 0 + 1) ::
        f.filter (fun e => e.1 != key)).lookup key).getD 0 + m = maxRetry + 1 := by
      simp [List.lookup]
      omega
    have := ih _ { fx with syncs := fx.syncs ++ [key],
                           calls := fx.calls ++ (syncService intSize c key).1 }
      fuel1 hlook (by omega)
    obtain ⟨h1, h2, h3⟩ := this
    refine ⟨?_, ?_, ?_⟩
    · rw [h1]
      simp [List.replicate_succ]
    · rw [h2]
    · rw [h3]
      simp [drainedQueue, List.filter_cons, List.filter_filter]

/-- A key that starts with retry counter 0 and whose `syncService` fails every
time is attempted `maxRetry + 2` times, whatever the key, the error and the
remaining fuel; then the error is handled once and the queue is empty. -/
theorem worker_failing_attempts (intSize : Nat) (c : controller) (key : String) (e : Error)
    (fuel : Nat) (hfail : (syncService intSize c key).2 = some e)
    (hfuel : maxRetry + 2 ≤ fuel) :
    (worker intSize fuel { c with queue := emptyQueue.Add key } noEffects).2.syncs =
        List.replicate (maxRetry + 2) key ∧
      (worker intSize fuel { c with queue := emptyQueue.Add key } noEffects).2.handled = [e] ∧
      (worker intSize fuel { c with queue := emptyQueue.Add key } noEffects).1.queue =
        emptyQueue := by
  have hq : emptyQueue.Add key = pendingQueue key [] := by
    simp [emptyQueue, RateLimitingQueue.Add, setInsert, pendingQueue]
  rw [hq]
  have := worker_failing intSize c key e hfail (maxRetry + 1) [] noEffects fuel
    (by simp [List.lookup]) (by omega)
  simpa [noEffects, drainedQueue, emptyQueue] using this


/-- Whenever `strconv.Atoi` answers a syntax error, the value it returns with
it is 0. -/
theorem Atoi_syntax_zero (intSize : Nat) (po x : String)
    (h : (Atoi intSize po).2 = some (Error.SyntaxError x)) : (Atoi intSize po).1 = 0 := by
  revert h
  unfold Atoi ParseInt
  simp only
  repeat' split
  all_goals simp

/-- Whenever the "service/port" annotation is present and `strconv.Atoi`
answers a syntax error for it, the built Ingress's backend port number is 0. -/
theorem port_syntax_error_zero (intSize : Nat) (s : Service) (po x : String)
    (hpo : s.Annotations.lookup "service/port" = some po)
    (herr : (Atoi intSize po).2 = some (Error.SyntaxError x)) :
    (constructIngress intSize s).backendPort = some 0 := by
  have h0 := Atoi_syntax_zero intSize po x herr
  simp [constructIngress, Ingress.backendPort, hpo, h0, toInt32]

end IngressManager
